import Mathlib

/-!
Verification development for the rouge-ecs core: a shallow embedding of the
archetype index, query planning, component registry, sparse storage, opaque
buffer accessors, deferred action buffer and schedule graph, translated from
the Rust sources, together with theorems settling the specification claims.

Machine integers (`usize`, `u32`, `u64`) are modelled as `Nat`; none of the
embedded operations overflow on the inputs considered.  Rust `TypeId` values
are modelled as `Nat` tags.  A Rust function that can panic is embedded with
result type `Except Unit _`, where `Except.error ()` marks the panic.
-/

/-! ## Core identifiers (src/core/component.rs, src/core/entity.rs) -/

/-- Dense component id (`ComponentId(usize)`, src/core/component.rs). -/
abbrev ComponentId := Nat

/-- Generational entity handle (`Entity { id, generation }`, src/core/entity.rs). -/
structure Entity where
  id : Nat
  generation : Nat
deriving DecidableEq, Repr

/-- Archetype identity.  The source hashes the sorted component-id list into a
`u64` (`ArchetypeId::new`, src/archetype/mod.rs:17-24); equal sorted lists give
equal ids.  The embedding uses the sorted list itself as the identity, which
models the hash as injective (hash collisions are out of scope). -/
abbrev ArchetypeId := List Nat

/-- Insertion sort on `Nat`, the model of `components.sort()`. -/
def insertSorted (x : Nat) : List Nat → List Nat
  | [] => [x]
  | y :: ys => if x ≤ y then x :: y :: ys else y :: insertSorted x ys

/-- Model of `Vec::sort` for component-id lists. -/
def sortIds (l : List Nat) : List Nat :=
  l.foldr insertSorted []

/-- `ArchetypeId::new` (src/archetype/mod.rs:17-24): sort the component ids and
hash them; the embedding keeps the sorted list. -/
def ArchetypeId.new (components : List ComponentId) : ArchetypeId :=
  sortIds components

/-! ## Sparse map model

The `SparseMap<K, V>` type used by the archetype index is not present under
src/ (only `SparseSet` is, in src/storage/sparse.rs). -/

/-- Modelled from the spec: `SparseMap<K, V>` (spec §4.B), the associative
container missing from src/storage.  A pair of dense storage and a sparse
index; modelled extensionally as the dense entry list in insertion order.
`insert` overwrites in place or appends, `get` is key lookup, `values`
iterates in dense order, `remove` swap-removes the dense slot. -/
structure SparseMap (K V : Type) where
  entries : List (K × V)
deriving DecidableEq, Repr

/-- Empty sparse map (`SparseMap::new`). -/
def SparseMap.empty {K V : Type} : SparseMap K V := ⟨[]⟩

/-- Key lookup (`SparseMap::get`). -/
def SparseMap.get {K V : Type} [DecidableEq K] (m : SparseMap K V) (k : K) : Option V :=
  (m.entries.find? (fun p => decide (p.1 = k))).map (·.2)

/-- Insert or overwrite (`SparseMap::insert`). -/
def SparseMap.insert {K V : Type} [DecidableEq K] (m : SparseMap K V) (k : K) (v : V) :
    SparseMap K V :=
  if (m.entries.find? (fun p => decide (p.1 = k))).isSome then
    ⟨m.entries.map (fun p => if p.1 = k then (k, v) else p)⟩
  else
    ⟨m.entries ++ [(k, v)]⟩

/-- Dense-order value iteration (`SparseMap::values`). -/
def SparseMap.values {K V : Type} (m : SparseMap K V) : List V :=
  m.entries.map (·.2)

/-- Swap-remove the element at a dense position: overwrite it with the last
element and drop the tail (model of `Vec::swap_remove` on the dense storage). -/
def swapRemoveAt {α : Type} (l : List α) (i : Nat) : List α :=
  match l.getLast? with
  | Option.none => l
  | some last => (l.set i last).dropLast

/-- Remove by key (`SparseMap::remove`): swap-remove the dense entry. -/
def SparseMap.remove {K V : Type} [DecidableEq K] (m : SparseMap K V) (k : K) :
    SparseMap K V × Option V :=
  match m.entries.findIdx? (fun p => decide (p.1 = k)) with
  | Option.none => (m, Option.none)
  | some i => (⟨swapRemoveAt m.entries i⟩, (m.entries.get? i).map (·.2))

/-! ## Archetype index (src/archetype/mod.rs) -/

/-- `Archetype { id, entities, components }` (src/archetype/mod.rs:51-55).
`entities` is keyed by `entity.id()`. -/
structure Archetype where
  id : ArchetypeId
  entities : SparseMap Nat Entity
  components : List ComponentId
deriving DecidableEq, Repr

/-- `Archetype::new` (src/archetype/mod.rs:58-64). -/
def Archetype.new (id : ArchetypeId) (components : List ComponentId) : Archetype :=
  ⟨id, SparseMap.empty, components⟩

/-- `Archetype::added` (src/archetype/mod.rs:66-70): push the component onto a
copy of the component list (no duplicate check in the source). -/
def Archetype.added (a : Archetype) (c : ComponentId) : List ComponentId :=
  a.components ++ [c]

/-- `Archetype::removed` (src/archetype/mod.rs:72-76): retain all components
different from `c`. -/
def Archetype.removed (a : Archetype) (c : ComponentId) : List ComponentId :=
  a.components.filter (fun x => decide (x ≠ c))

/-- `Archetypes { archetypes, entities, components }` (src/archetype/mod.rs:91-95).
The `components` field is the inverted index `ComponentId → HashSet<ArchetypeId>`;
each hash set is modelled as a duplicate-free list, its order standing in for
the unspecified hash-iteration order. -/
structure Archetypes where
  archetypes : SparseMap ArchetypeId Archetype
  entities : SparseMap Nat ArchetypeId
  components : SparseMap ComponentId (List ArchetypeId)
deriving DecidableEq, Repr

/-- `Archetypes::new` (src/archetype/mod.rs:97-104). -/
def Archetypes.new : Archetypes :=
  ⟨SparseMap.empty, SparseMap.empty, SparseMap.empty⟩

/-- `HashSet::insert` on the modelled bucket: no-op when present, append when
absent. -/
def bucketInsert (bucket : List ArchetypeId) (id : ArchetypeId) : List ArchetypeId :=
  if id ∈ bucket then bucket else bucket ++ [id]

/-- `Archetypes::add_component_archetype` (src/archetype/mod.rs:266-274). -/
def Archetypes.addComponentArchetype (s : Archetypes) (c : ComponentId) (id : ArchetypeId) :
    Archetypes :=
  match s.components.get c with
  | some bucket => { s with components := s.components.insert c (bucketInsert bucket id) }
  | Option.none => { s with components := s.components.insert c [id] }

/-- `Archetypes::add_entity` (src/archetype/mod.rs:166-182): put the entity into
the empty archetype, creating it on first use. -/
def Archetypes.addEntity (s : Archetypes) (e : Entity) : Archetypes × ArchetypeId :=
  let id := ArchetypeId.new []
  let s := { s with entities := s.entities.insert e.id id }
  match s.archetypes.get id with
  | some arch =>
      ({ s with archetypes :=
          s.archetypes.insert id { arch with entities := arch.entities.insert e.id e } }, id)
  | Option.none =>
      let arch := Archetype.new id []
      let arch := { arch with entities := arch.entities.insert e.id e }
      ({ s with archetypes := s.archetypes.insert id arch }, id)

/-- `Archetypes::add_component` (src/archetype/mod.rs:184-212).  The source
unwraps the archetype lookup for the entity's current id; that lookup cannot
fail in states produced by the API, and the embedding returns the state
unchanged in that unreachable branch. -/
def Archetypes.addComponent (s : Archetypes) (e : Entity) (c : ComponentId) :
    Archetypes × Option ArchetypeId :=
  match s.entities.get e.id with
  | Option.none => (s, Option.none)
  | some id =>
    match s.archetypes.get id with
    | Option.none => (s, Option.none)
    | some arch =>
      let s := { s with archetypes :=
        s.archetypes.insert id { arch with entities := (arch.entities.remove e.id).1 } }
      let comps := arch.added c
      let newId := ArchetypeId.new comps
      let s := comps.foldl (fun s cc => s.addComponentArchetype cc newId) s
      let s :=
        match s.archetypes.get newId with
        | some na => { s with archetypes :=
            s.archetypes.insert newId { na with entities := na.entities.insert e.id e } }
        | Option.none =>
            let na := Archetype.new newId comps
            let na := { na with entities := na.entities.insert e.id e }
            { s with archetypes := s.archetypes.insert newId na }
      ({ s with entities := s.entities.insert e.id newId }, some newId)

/-- `Archetypes::remove_component` (src/archetype/mod.rs:214-245), symmetric to
`add_component` with `removed` in place of `added`. -/
def Archetypes.removeComponent (s : Archetypes) (e : Entity) (c : ComponentId) :
    Archetypes × Option ArchetypeId :=
  match s.entities.get e.id with
  | Option.none => (s, Option.none)
  | some id =>
    match s.archetypes.get id with
    | Option.none => (s, Option.none)
    | some arch =>
      let s := { s with archetypes :=
        s.archetypes.insert id { arch with entities := (arch.entities.remove e.id).1 } }
      let comps := arch.removed c
      let newId := ArchetypeId.new comps
      let s := comps.foldl (fun s cc => s.addComponentArchetype cc newId) s
      let s :=
        match s.archetypes.get newId with
        | some na => { s with archetypes :=
            s.archetypes.insert newId { na with entities := na.entities.insert e.id e } }
        | Option.none =>
            let na := Archetype.new newId comps
            let na := { na with entities := na.entities.insert e.id e }
            { s with archetypes := s.archetypes.insert newId na }
      ({ s with entities := s.entities.insert e.id newId }, some newId)

/-- `Archetypes::has` (src/archetype/mod.rs:257-264): the entity's archetype
contains the component.  The source unwraps the archetype lookup; the
unreachable missing-archetype branch is `false` here. -/
def Archetypes.has (s : Archetypes) (e : Entity) (c : ComponentId) : Bool :=
  match s.entities.get e.id with
  | some id =>
    match s.archetypes.get id with
    | some arch => decide (c ∈ arch.components)
    | Option.none => false
  | Option.none => false

/-- Body of the inner loop of `Archetypes::archetypes`
(src/archetype/mod.rs:150-159): look the candidate id up, keep `archetype.id()`
when the component set contains every `ws` entry and no `wo` entry. -/
def queryCheck (s : Archetypes) (ws wo : List ComponentId) (aid : ArchetypeId) :
    Option ArchetypeId :=
  match s.archetypes.get aid with
  | Option.none => Option.none
  | some arch =>
      if (ws.all fun cc => decide (cc ∈ arch.components))
          && (wo.all fun cc => decide (cc ∉ arch.components)) then
        some arch.id
      else
        Option.none

/-- `Archetypes::archetypes` (src/archetype/mod.rs:141-164): for every entry of
`ws` in order, scan that component's inverted-index bucket and push every
candidate that passes the with/without test.  (Named `archetypesQuery` because
the structure field is already called `archetypes`.) -/
def Archetypes.archetypesQuery (s : Archetypes) (ws wo : List ComponentId) :
    List ArchetypeId :=
  ws.flatMap fun c =>
    match s.components.get c with
    | Option.none => []
    | some bucket => bucket.filterMap (queryCheck s ws wo)

/-! ## Query engine (src/world/query.rs) -/

/-- `QueryState { components, without }` (src/world/query.rs:180-184). -/
structure QueryState where
  components : List ComponentId
  without : List ComponentId
deriving DecidableEq, Repr

/-- `QueryState::new` (src/world/query.rs:186-192). -/
def QueryState.new : QueryState := ⟨[], []⟩

/-- `QueryState::add_component` (src/world/query.rs:194-196). -/
def QueryState.addComponent (st : QueryState) (c : ComponentId) : QueryState :=
  { st with components := st.components ++ [c] }

/-- `QueryState::add_without` (src/world/query.rs:198-200). -/
def QueryState.addWithout (st : QueryState) (c : ComponentId) : QueryState :=
  { st with without := st.without ++ [c] }

/-- `<&C as BaseQuery>::init` (src/world/query.rs:24-26): a shared fetch of `C`
adds `C` to the must-contain list. -/
def fetchRefInit (c : ComponentId) (st : QueryState) : QueryState :=
  st.addComponent c

/-- `With<C>::init` (src/world/query.rs:102-107). -/
def withInit (c : ComponentId) (st : QueryState) : QueryState :=
  st.addComponent c

/-- `Not<C>::init` (src/world/query.rs:113-118), the source's `Without` filter. -/
def notInit (c : ComponentId) (st : QueryState) : QueryState :=
  st.addWithout c

/-- Archetype selection performed by `Query::new` (src/world/query.rs:139-144):
the source calls `archetypes(state.components(), &[])`, passing an empty
`without` slice — `state.without` is never consulted. -/
def queryNewTableIds (s : Archetypes) (st : QueryState) : List ArchetypeId :=
  s.archetypesQuery st.components []

/-- Modelled from the spec: the table store and row iteration
(`Tables::array`, `Table::rows`, `Query::next`) — the `Tables` type is missing
from src/storage/table.rs.  Spec §4.F/§4.G: one table per archetype whose rows
are that archetype's entities; iteration visits the cached tables in returned
order and yields each row's entity. -/
def queryIterEntities (s : Archetypes) (st : QueryState) : List Entity :=
  (queryNewTableIds s st).flatMap fun id =>
    match s.archetypes.get id with
    | some arch => arch.entities.values
    | Option.none => []

/-! ## Concrete world used by the query and archetype-index claims -/

/-- Component id of `C` in the concrete scenario. -/
def cComp : ComponentId := 0

/-- Component id of `D` in the concrete scenario. -/
def dComp : ComponentId := 1

/-- Entity holding only `C`. -/
def entA : Entity := ⟨0, 0⟩

/-- Entity holding `C` and `D`. -/
def entB : Entity := ⟨1, 0⟩

/-- Archetype state after `add_entity(entA)`, `add_entity(entB)`,
`add_component(entA, C)`, `add_component(entB, C)`, `add_component(entB, D)`. -/
def c1State : Archetypes :=
  let s := (Archetypes.new.addEntity entA).1
  let s := (s.addEntity entB).1
  let s := (s.addComponent entA cComp).1
  let s := (s.addComponent entB cComp).1
  ((s.addComponent entB dComp).1)

/-- Query state built by `Query::<&C, (With<C>, Not<D>)>::new`: fetch init then
filter init, in source order. -/
def c1QueryState : QueryState :=
  notInit dComp (withInit cComp (fetchRefInit cComp QueryState.new))

/-! ## Component registry (src/core/component.rs) -/

/-- Host-language type handed to registration: the data `ComponentMeta::new::<T>`
reads off a type (`type_name`, `Layout::new::<T>`, `TypeId::of::<T>`). -/
structure TypeDesc where
  name : String
  size : Nat
  align : Nat
  tyid : Nat
deriving DecidableEq, Repr

/-- `ComponentMeta { name, layout, type_id }` (src/core/component.rs:56-60). -/
structure ComponentMeta where
  name : String
  size : Nat
  align : Nat
  tyid : Nat
deriving DecidableEq, Repr

/-- `ComponentMeta::new::<T>` (src/core/component.rs:63-69). -/
def ComponentMeta.ofType (t : TypeDesc) : ComponentMeta :=
  ⟨t.name, t.size, t.align, t.tyid⟩

/-- Insert-or-replace on an association list, the model of `HashMap::insert`. -/
def assocInsert {K V : Type} [DecidableEq K] (m : List (K × V)) (k : K) (v : V) :
    List (K × V) :=
  if (m.find? (fun p => decide (p.1 = k))).isSome then
    m.map (fun p => if p.1 = k then (k, v) else p)
  else
    m ++ [(k, v)]

/-- Lookup on an association list, the model of `HashMap::get`. -/
def assocGet {K V : Type} [DecidableEq K] (m : List (K × V)) (k : K) : Option V :=
  (m.find? (fun p => decide (p.1 = k))).map (·.2)

/-- `Components { components, id_map }` (src/core/component.rs:84-87). -/
structure Components where
  components : List ComponentMeta
  id_map : List (Nat × Nat)
deriving DecidableEq, Repr

/-- `Components::new` (src/core/component.rs:90-95). -/
def Components.new : Components := ⟨[], []⟩

/-- `Components::register::<T>` (src/core/component.rs:97-103): unconditionally
take the next index, push a fresh metadata entry and (re)map the type id. -/
def Components.register (s : Components) (t : TypeDesc) : Components × ComponentId :=
  let id := s.components.length
  (⟨s.components ++ [ComponentMeta.ofType t], assocInsert s.id_map t.tyid id⟩, id)

/-- `Components::get_id::<T>` (src/core/component.rs:121-125). -/
def Components.getId (s : Components) (t : TypeDesc) : Option ComponentId :=
  assocGet s.id_map t.tyid

/-- `Components::contains::<T>` (src/core/component.rs:117-119). -/
def Components.containsType (s : Components) (t : TypeDesc) : Bool :=
  (assocGet s.id_map t.tyid).isSome

/-! ## Sparse set (src/storage/sparse.rs)

This is the faithful embedding of the source `SparseArray`/`SparseSet` pair,
panics included: a call that unwraps `None` or indexes out of bounds is
`Except.error ()`. -/

/-- `SparseArray<V>` (src/storage/sparse.rs:1-3): a vector of optional slots. -/
structure SparseArray (V : Type) where
  values : List (Option V)
deriving DecidableEq, Repr

/-- `SparseArray::new` (src/storage/sparse.rs:6-8). -/
def SparseArray.new {V : Type} : SparseArray V := ⟨[]⟩

/-- `SparseArray::insert` (src/storage/sparse.rs:16-21): pad with `None` up to
the index, then fill the slot. -/
def SparseArray.insert {V : Type} (a : SparseArray V) (i : Nat) (v : V) : SparseArray V :=
  let vs :=
    if a.values.length ≤ i then
      a.values ++ List.replicate (i + 1 - a.values.length) Option.none
    else
      a.values
  ⟨vs.set i (some v)⟩

/-- `SparseArray::get` (src/storage/sparse.rs:23-25): out of range is `None`;
an in-range empty slot hits `as_ref().unwrap()` and panics. -/
def SparseArray.get {V : Type} (a : SparseArray V) (i : Nat) : Except Unit (Option V) :=
  match a.values.get? i with
  | Option.none => Except.ok Option.none
  | some (some v) => Except.ok (some v)
  | some Option.none => Except.error ()

/-- `SparseArray::remove` (src/storage/sparse.rs:33-37): take the slot; an
in-range empty slot hits `take().unwrap()` and panics. -/
def SparseArray.removeSlot {V : Type} (a : SparseArray V) (i : Nat) :
    Except Unit (Option V × SparseArray V) :=
  match a.values.get? i with
  | Option.none => Except.ok (Option.none, a)
  | some (some v) => Except.ok (some v, ⟨a.values.set i Option.none⟩)
  | some Option.none => Except.error ()

/-- `SparseArray::contains` (src/storage/sparse.rs:47-49): the source only tests
`values.get(index).is_some()`, i.e. that the index is within the backing
vector — the content of the slot is not consulted. -/
def SparseArray.contains {V : Type} (a : SparseArray V) (i : Nat) : Bool :=
  decide (i < a.values.length)

/-- `SparseSet<V>` (src/storage/sparse.rs:60-64). -/
structure SparseSet (V : Type) where
  values : List V
  indices : List Nat
  array : SparseArray Nat
deriving DecidableEq, Repr

/-- `SparseSet::new` (src/storage/sparse.rs:67-73). -/
def SparseSet.new {V : Type} : SparseSet V := ⟨[], [], SparseArray.new⟩

/-- `SparseSet::insert` (src/storage/sparse.rs:83-92). -/
def SparseSet.insert {V : Type} (s : SparseSet V) (i : Nat) (v : V) :
    Except Unit (SparseSet V) :=
  match s.array.get i with
  | Except.error e => Except.error e
  | Except.ok (some m) => Except.ok { s with values := s.values.set m v }
  | Except.ok Option.none =>
      let m := s.values.length
      Except.ok ⟨s.values ++ [v], s.indices ++ [i], s.array.insert i m⟩

/-- `Vec::swap_remove` (used at src/storage/sparse.rs:108-109): return the
element at the position and move the last element into it; out of range
panics. -/
def listSwapRemove {α : Type} (l : List α) (i : Nat) : Except Unit (α × List α) :=
  match l.get? i with
  | Option.none => Except.error ()
  | some x => Except.ok (x, swapRemoveAt l i)

/-- `SparseSet::remove` (src/storage/sparse.rs:106-115): take the sparse slot,
swap-remove the dense value and index, then repatch the sparse entry.  Note
the source repatches `self.indices.swap_remove(mapped_index)` — the key of the
element just removed, not the key of the tail element that moved. -/
def SparseSet.remove {V : Type} (s : SparseSet V) (i : Nat) :
    Except Unit (Option V × SparseSet V) :=
  match s.array.removeSlot i with
  | Except.error e => Except.error e
  | Except.ok (Option.none, _) => Except.ok (Option.none, s)
  | Except.ok (some m, arr1) =>
      match listSwapRemove s.values m with
      | Except.error e => Except.error e
      | Except.ok (v, values1) =>
          match listSwapRemove s.indices m with
          | Except.error e => Except.error e
          | Except.ok (removedKey, indices1) =>
              Except.ok (some v, ⟨values1, indices1, arr1.insert removedKey m⟩)

/-- `SparseSet::get` (src/storage/sparse.rs:94-98): map the sparse slot through
`&self.values[*mapped_index]`; a stale mapping indexes out of bounds and
panics. -/
def SparseSet.get {V : Type} (s : SparseSet V) (i : Nat) : Except Unit (Option V) :=
  match s.array.get i with
  | Except.error e => Except.error e
  | Except.ok Option.none => Except.ok Option.none
  | Except.ok (some m) =>
      match s.values.get? m with
      | some v => Except.ok (some v)
      | Option.none => Except.error ()

/-- `SparseSet::contains` (src/storage/sparse.rs:129-131): delegates to
`SparseArray::contains`. -/
def SparseSet.contains {V : Type} (s : SparseSet V) (i : Nat) : Bool :=
  s.array.contains i

/-- Sparse-set state after `insert(0, 10)`. -/
def c7s1 : SparseSet Nat := ⟨[10], [0], ⟨[some 0]⟩⟩

/-- Sparse-set state after `insert(0, 10)` then `insert(1, 20)`. -/
def c7s2 : SparseSet Nat := ⟨[10, 20], [0, 1], ⟨[some 0, some 1]⟩⟩

/-- Sparse-set state after `insert(0, 10)`, `insert(1, 20)`, `remove(0)`:
the dense slot of key 0 was swap-removed, but the repatch re-inserted the
removed key 0 (pointing at slot 0) and left key 1 mapped to the now
out-of-range slot 1. -/
def c7s3 : SparseSet Nat := ⟨[20], [1], ⟨[some 0, some 1]⟩⟩

/-! ## Opaque buffer accessors (src/storage/blob.rs) -/

/-- `Blob` (src/storage/blob.rs:85-92), restricted to what the typed accessors
touch: the element count, the capacity, and the raw backing memory.  `data r`
models the bytes at `base + r * aligned_layout.size()` reinterpreted as `T`;
the function is total because machine memory always yields bytes — reading
past the buffer is undefined behaviour, which is precisely what the guarded
accessors avoid. -/
structure Blob (T : Type) where
  len : Nat
  capacity : Nat
  data : Nat → T

/-- `Blob::get::<T>` (src/storage/blob.rs:305-313): bounds-check against `len`
before the raw read. -/
def Blob.get {T : Type} (b : Blob T) (i : Nat) : Option T :=
  if i < b.len then some (b.data i) else Option.none

/-- `Blob::get_mut::<T>` (src/storage/blob.rs:315-323): same guard as `get`,
returning an exclusive view. -/
def Blob.get_mut {T : Type} (b : Blob T) (i : Nat) : Option T :=
  if i < b.len then some (b.data i) else Option.none

/-! ## Deferred action buffer (src/world/actions/mod.rs) -/

/-- `ActionOutputs` (src/world/actions/mod.rs:228-230): a map from the action
type id to the boxed output vector, for one output type `O`. -/
abbrev ActionOutputs (O : Type) := List (Nat × List O)

/-- `ActionOutputs::add::<A>` (src/world/actions/mod.rs:245-248): the source
executes `self.outputs.insert(TypeId::of::<A>(), Box::new(vec![output]))`,
replacing whatever vector the type already had with a fresh one-element
vector. -/
def ActionOutputs.add {O : Type} (outs : ActionOutputs O) (tid : Nat) (o : O) :
    ActionOutputs O :=
  assocInsert outs tid [o]

/-- One deferred action instance for world type `W` and output type `O`: the
`skip` predicate and the `execute` body of the `Action` trait
(src/world/actions/mod.rs:16-27). -/
structure ActionInstance (W O : Type) where
  skip : W → Bool
  execute : W → W × O

/-- Loop body of the per-type executor closure registered by `Actions::add`
(src/world/actions/mod.rs:104-116): a non-skipped instance executes and its
result goes through `ActionOutputs::add`; a skipped instance does nothing. -/
def actionStep {W O : Type} (tid : Nat) (st : W × ActionOutputs O)
    (a : ActionInstance W O) : W × ActionOutputs O :=
  if a.skip st.1 then st
  else
    let r := a.execute st.1
    (r.1, ActionOutputs.add st.2 tid r.2)

/-- The full executor closure for one action type: drain the queue in FIFO
order through `actionStep`, then run `A::finish` (the trait default is a
no-op; callers pass `id`). -/
def executeQueue {W O : Type} (tid : Nat) (finish : W → W)
    (insts : List (ActionInstance W O)) (st : W × ActionOutputs O) :
    W × ActionOutputs O :=
  let st := insts.foldl (actionStep tid) st
  (finish st.1, st.2)

/-- `RemoveComponent::<C>` as an action instance (src/world/actions/builtin.rs:113-126):
`skip` is `!world.has::<C>(entity)`; `execute` removes the component through the
archetype index (the world state visible to this claim) and returns the entity. -/
def removeComponentAction (c : ComponentId) (e : Entity) : ActionInstance Archetypes Entity :=
  { skip := fun w => !(w.has e c)
    execute := fun w => ((w.removeComponent e c).1, e) }

/-- Test action used by the output-buffer claim: never skipped, leaves the
world alone, returns `k`. -/
def constOutputAction (k : Nat) : ActionInstance Unit Nat :=
  { skip := fun _ => false
    execute := fun u => (u, k) }

/-! ## Schedule graph (src/schedule/graph.rs, src/world/meta.rs, src/system/mod.rs) -/

/-- `AccessType` (src/world/meta.rs:14-20). -/
inductive AccessType where
  | none
  | world
  | component (id : Nat)
  | resource (id : Nat)
deriving DecidableEq, Repr

/-- `Node` (src/schedule/graph.rs:37-40) as the scheduler sees it: the declared
read and write access sets plus explicit dependency edges. -/
structure Node where
  reads : List AccessType
  writes : List AccessType
  dependencies : List Nat
deriving DecidableEq, Repr

instance : Inhabited Node := ⟨⟨[], [], []⟩⟩

/-- The dependency graph under construction:
`HashMap<NodeId, HashSet<NodeId>>` modelled as an association list of
duplicate-free adjacency lists. -/
abbrev DepGraph := List (Nat × List Nat)

/-- Adjacency lookup with default, the model of
`dependency_graph.get(&j).and_then(|set| set.get(&i))` probing. -/
def depsOf (g : DepGraph) (i : Nat) : List Nat :=
  (assocGet g i).getD []

/-- `HashSet::insert` on an adjacency list. -/
def natSetInsert (l : List Nat) (x : Nat) : List Nat :=
  if x ∈ l then l else l ++ [x]

/-- `dependency_graph.entry(i).or_insert_with(HashSet::new).insert(j)`
(src/schedule/graph.rs:172-175). -/
def graphAddEdge (g : DepGraph) (i j : Nat) : DepGraph :=
  assocInsert g i (natSetInsert (depsOf g i) j)

/-- Edge condition of the access pass (src/schedule/graph.rs:165-171): some
write of `a` that is not `AccessType::None` appears among the READS of `b`.
The writes of `b` are not consulted by the source. -/
def edgeCond (a b : Node) : Bool :=
  a.writes.any fun w => decide (w ≠ AccessType.none) && decide (w ∈ b.reads)

/-- First phase of `SystemGraph::build` (src/schedule/graph.rs:151-185): for
each node `i` in order, register an empty adjacency set, scan every `j`,
skipping `j = i` and any `j` whose set already holds `i` (first-seen wins),
adding `i → j` when `edgeCond` holds; finally add the node's explicit
dependencies. -/
def buildDependencyGraph (nodes : List Node) : DepGraph :=
  (List.range nodes.length).foldl
    (fun g i =>
      let node := nodes.getD i default
      let g := assocInsert g i ([] : List Nat)
      let g :=
        (List.range nodes.length).foldl
          (fun g j =>
            if i = j ∨ i ∈ depsOf g j then g
            else if edgeCond node (nodes.getD j default) then graphAddEdge g i j
            else g)
          g
      node.dependencies.foldl (fun g d => graphAddEdge g i d) g)
    []

/-- The peel step's group (src/schedule/graph.rs:190-200): the keys contained
in no adjacency set, then `group.sort()`. -/
def unblockedGroup (g : DepGraph) : List Nat :=
  sortIds ((g.map (·.1)).filter fun n => g.all fun p => decide (n ∉ p.2))

/-- Stable insertion into a layer list ordered by first element, the model of
`hierarchy.sort_by(|a, b| a.first().unwrap().cmp(b.first().unwrap()))`
(src/schedule/graph.rs:225-230).  The source unwraps the first element and
would panic on an empty layer; layers reaching the sort here are non-empty. -/
def insertLayer (x : List Nat) : List (List Nat) → List (List Nat)
  | [] => [x]
  | y :: ys => if y.headD 0 ≤ x.headD 0 then y :: insertLayer x ys else x :: y :: ys

/-- Final `sort_by` over the hierarchy (src/schedule/graph.rs:225-230). -/
def sortLayersByFirst (ls : List (List Nat)) : List (List Nat) :=
  ls.foldl (fun acc l => insertLayer l acc) []

/-- The layering peel loop of `SystemGraph::build` (src/schedule/graph.rs:189-223),
driven by fuel.  Each productive iteration removes at least one key, so fuel
equal to the initial key count always suffices; the loop body of the source
removes nothing when the unblocked group is empty while nodes remain, looping
forever — the embedding returns `Option.none` exactly there. -/
def peelLoop (nodes : List Node) : Nat → DepGraph → List (List Nat) →
    Option (List (List Nat))
  | 0, g, acc => if g.isEmpty then some acc else Option.none
  | Nat.succ fuel, g, acc =>
    if g.isEmpty then some acc
    else
      let group := unblockedGroup g
      if group.isEmpty then Option.none
      else
        let g1 := g.filter fun p => decide (p.1 ∉ group)
        let worldNodes := group.filter fun n =>
          decide (AccessType.world ∈ (nodes.getD n default).reads)
        let group1 := group.filter fun n => decide (n ∉ worldNodes)
        let acc1 := (group1 :: acc) ++ worldNodes.map (fun n => [n])
        peelLoop nodes fuel g1 acc1

/-- `SystemGraph::build` (src/schedule/graph.rs:151-233): access-derived edge
pass, peel loop, final sort of the hierarchy.  `Option.none` marks the
non-terminating peel (see `peelLoop`). -/
def SystemGraph.build (nodes : List Node) : Option (List (List Nat)) :=
  let g := buildDependencyGraph nodes
  (peelLoop nodes g.length g []).map sortLayersByFirst

/-- Access-set conflict in the sense of the spec: some write of `a` appears
among the reads or writes of `b`. -/
def accessConflict (a b : Node) : Bool :=
  a.writes.any fun w => decide (w ∈ b.reads) || decide (w ∈ b.writes)

/-- A system that writes resource 0 and reads nothing. -/
def writerSys : Node := ⟨[], [AccessType.resource 0], []⟩

/-- Three systems forming a write-read cycle over resources 0, 1, 2:
node `k` reads resource `k + 2 mod 3` and writes resource `k`. -/
def cycleNodes : List Node :=
  [⟨[AccessType.resource 2], [AccessType.resource 0], []⟩,
   ⟨[AccessType.resource 0], [AccessType.resource 1], []⟩,
   ⟨[AccessType.resource 1], [AccessType.resource 2], []⟩]

/-! ## Derived predicates and remaining concrete inputs -/

/-- The bucket of the inverted component index, empty when the component has
no entry. -/
def bucketD (s : Archetypes) (c : ComponentId) : List ArchetypeId :=
  (s.components.get c).getD []

/-- An archetype id qualifies for `(ws, wo)` when it resolves in the archetype
map and its component set contains every `ws` entry and no `wo` entry — the
exact test `Archetypes::archetypes` applies to each candidate. -/
def qualifies (s : Archetypes) (ws wo : List ComponentId) (aid : ArchetypeId) : Bool :=
  match s.archetypes.get aid with
  | some arch =>
      (ws.all fun cc => decide (cc ∈ arch.components))
        && (wo.all fun cc => decide (cc ∉ arch.components))
  | Option.none => false

/-- Concrete component type used by the registration claim. -/
def positionType : TypeDesc := ⟨"Position", 8, 4, 0⟩

/-! ## Helper lemmas -/

/-- Replacing the value of a present key makes it the `find?` result. -/
theorem find?_map_replace {K V : Type} [DecidableEq K] (k : K) (v : V) :
    ∀ m : List (K × V), (m.find? (fun p => decide (p.1 = k))).isSome = true →
      (m.map (fun p => if p.1 = k then (k, v) else p)).find? (fun p => decide (p.1 = k))
        = some (k, v) := by
  intro m
  induction m with
  | nil => simp
  | cons p t ih =>
      by_cases hp : p.1 = k
      · intro _
        simp [List.find?_cons, hp]
      · intro h
        have hres : (List.find? (fun p => decide (p.1 = k)) t).isSome = true := by
          simpa [List.find?_cons, hp] using h
        simpa [List.find?_cons, hp] using ih hres

/-- Appending a matching pair to a list where `find?` fails finds the pair. -/
theorem find?_append_of_none {K V : Type} [DecidableEq K] (k : K) (v : V) :
    ∀ m : List (K × V), m.find? (fun p => decide (p.1 = k)) = Option.none →
      (m ++ [(k, v)]).find? (fun p => decide (p.1 = k)) = some (k, v) := by
  intro m
  induction m with
  | nil => simp
  | cons p t ih =>
      by_cases hp : p.1 = k
      · intro h
        simp [List.find?_cons, hp] at h
      · intro h
        have ht : List.find? (fun p => decide (p.1 = k)) t = Option.none := by
          simpa [List.find?_cons, hp] using h
        simpa [List.find?_cons, hp] using ih ht

/-- `assocInsert` followed by lookup of the same key yields the new value. -/
theorem assocGet_assocInsert_self {K V : Type} [DecidableEq K]
    (m : List (K × V)) (k : K) (v : V) :
    assocGet (assocInsert m k v) k = some v := by
  unfold assocGet assocInsert
  by_cases h : (m.find? (fun p => decide (p.1 = k))).isSome = true
  · simp [h, find?_map_replace k v m h]
  · have hn : m.find? (fun p => decide (p.1 = k)) = Option.none := by
      cases hf : m.find? (fun p => decide (p.1 = k)) with
      | none => rfl
      | some p => simp [hf] at h
    simp [h, find?_append_of_none k v m hn]

/-- A successful `SparseMap.get` comes from an entry of the map with the
looked-up key. -/
theorem SparseMap.get_eq_some_mem {K V : Type} [DecidableEq K]
    {m : SparseMap K V} {k : K} {v : V} (h : m.get k = some v) :
    (k, v) ∈ m.entries := by
  unfold SparseMap.get at h
  cases hf : m.entries.find? (fun p => decide (p.1 = k)) with
  | none => simp [hf] at h
  | some p =>
      have hp : p.1 = k := by
        have := List.find?_some hf
        simpa using this
      have hv : p.2 = v := by simp [hf] at h; exact h
      have hmem := List.mem_of_find?_eq_some hf
      have : p = (k, v) := by
        cases p
        simp_all
      simpa [this] using hmem

/-- Under a well-keyed archetype map, the per-candidate test of
`Archetypes::archetypes` is the `qualifies` predicate returning the candidate
itself. -/
theorem queryCheck_eq_qualifies {s : Archetypes}
    (hid : ∀ p ∈ s.archetypes.entries, p.2.id = p.1)
    (ws wo : List ComponentId) (aid : ArchetypeId) :
    queryCheck s ws wo aid = if qualifies s ws wo aid then some aid else Option.none := by
  unfold queryCheck qualifies
  cases hget : s.archetypes.get aid with
  | none => simp
  | some arch =>
      have harchid : arch.id = aid := hid (aid, arch) (SparseMap.get_eq_some_mem hget)
      simp [harchid]

/-- Under a well-keyed archetype map, filtering a bucket through the candidate
test is a plain filter by `qualifies`. -/
theorem filterMap_queryCheck {s : Archetypes}
    (hid : ∀ p ∈ s.archetypes.entries, p.2.id = p.1)
    (ws wo : List ComponentId) (bucket : List ArchetypeId) :
    bucket.filterMap (queryCheck s ws wo) = bucket.filter (qualifies s ws wo) := by
  induction bucket with
  | nil => rfl
  | cons aid t ih =>
      rw [List.filterMap_cons, List.filter_cons, queryCheck_eq_qualifies hid]
      by_cases hq : qualifies s ws wo aid = true
      · simp [hq, ih]
      · simp [hq, ih]

/-- Occurrence count through a Boolean filter. -/
theorem count_filter_eq {α : Type} [BEq α] [LawfulBEq α] (p : α → Bool) (a : α) (l : List α) :
    (l.filter p).count a = if p a then l.count a else 0 := by
  by_cases hp : p a = true
  · rw [if_pos hp]
    exact List.count_filter (l := l) hp
  · have : a ∉ l.filter p := fun hmem => hp (List.of_mem_filter hmem)
    simp [hp, List.count_eq_zero.mpr this]

/-- Occurrence count in a duplicate-free list. -/
theorem count_nodup {α : Type} [BEq α] [LawfulBEq α] {l : List α} (h : l.Nodup) (a : α) :
    l.count a = if a ∈ l then 1 else 0 := by
  induction l with
  | nil => simp
  | cons x t ih =>
      rcases List.nodup_cons.mp h with ⟨hx, ht⟩
      by_cases hax : a = x
      · subst hax
        simp [List.count_cons, ih ht, List.count_eq_zero.mpr hx, hx]
      · have hbx : ¬(x == a) = true := by
          simp
          exact fun h0 => hax h0.symm
        simp [List.count_cons, ih ht, hbx, List.mem_cons, hax]

/-- Count of an id in the inverted-index scan: one occurrence per scanned
component whose bucket holds the id, provided it qualifies; zero otherwise. -/
theorem count_flatMap_buckets {s : Archetypes}
    (hid : ∀ p ∈ s.archetypes.entries, p.2.id = p.1)
    (hnd : ∀ q ∈ s.components.entries, q.2.Nodup)
    (ws wo : List ComponentId) (a : ArchetypeId) :
    ∀ l : List ComponentId,
      ((l.flatMap fun c =>
          match s.components.get c with
          | Option.none => []
          | some bucket => bucket.filterMap (queryCheck s ws wo)).count a)
        = if qualifies s ws wo a then
            (l.filter fun c => decide (a ∈ bucketD s c)).length
          else 0 := by
  intro l
  induction l with
  | nil => simp
  | cons c t ih =>
      rw [List.flatMap_cons, List.count_append, ih]
      cases hb : s.components.get c with
      | none =>
          have hbd : bucketD s c = [] := by simp [bucketD, hb]
          simp [hbd, List.filter_cons]
      | some bucket =>
          have hbd : bucketD s c = bucket := by simp [bucketD, hb]
          have hnodup : bucket.Nodup := hnd (c, bucket) (SparseMap.get_eq_some_mem hb)
          have hred :
              (match some bucket with
                | Option.none => ([] : List ArchetypeId)
                | some bucket => bucket.filterMap (queryCheck s ws wo))
                = bucket.filterMap (queryCheck s ws wo) := rfl
          rw [hred, filterMap_queryCheck hid, count_filter_eq, count_nodup hnodup]
          by_cases hq : qualifies s ws wo a = true
          · by_cases hmem : a ∈ bucket
            · simp [hq, hmem, hbd, List.filter_cons, Nat.add_comm]
            · simp [hq, hmem, hbd, List.filter_cons]
          · simp [hq]

/-! ## Claim theorems -/

/-- C1: the claim states that iterating a query fetching `C` filtered by
`(With<C>, Without<D>)` yields exactly the live entities with `C` and without
`D`, each exactly once.  On the embedded code this fails: `Query::new` passes
an empty `without` slice to the archetype selection, so in the concrete world
`{entA ↦ {C}, entB ↦ {C, D}}` the query yields `entB` — which has `D` — and
yields every entity twice (the must-contain list holds `C` twice, once from
the fetch and once from `With<C>`, doubling every matching archetype). -/
theorem c1_without_filter_ignored :
    queryIterEntities c1State c1QueryState = [entA, entB, entA, entB]
    ∧ Archetypes.has c1State entB dComp = true
    ∧ entB ∈ queryIterEntities c1State c1QueryState := by
  refine ⟨rfl, rfl, ?_⟩
  decide

/-- C2: the claim states that an edge `i → j` is added exactly when
`writes(i)` meets `reads(j) ∪ writes(j)`, so in particular two systems that
both write the same resource are connected.  On the embedded code this fails:
the edge test only consults `reads(j)`, so two systems that write resource 0
and read nothing produce a dependency graph with no edge in either direction,
although the claim's conflict condition holds for the pair. -/
theorem c2_write_write_pair_unconnected :
    buildDependencyGraph [writerSys, writerSys] = [(0, []), (1, [])]
    ∧ accessConflict writerSys writerSys = true := by
  refine ⟨rfl, rfl⟩

/-- C3: the claim states that any two distinct systems placed in the same
layer satisfy `writes(s1) ∩ (reads(s2) ∪ writes(s2)) = ∅`.  On the embedded
code this fails: two systems that both write resource 0 get no dependency
edge (the edge test ignores `writes(j)`), so the build places both into the
single layer `[0, 1]` even though their write sets intersect. -/
theorem c3_layer_aliasing_writes :
    SystemGraph.build [writerSys, writerSys] = some [[0, 1]]
    ∧ accessConflict writerSys writerSys = true := by
  refine ⟨rfl, rfl⟩

/-- C4: the claim states that executing `n` non-skipped instances of one
action type leaves a queue of `n` per-instance results in FIFO order.  On the
embedded code this fails: `ActionOutputs::add` replaces the type's entry with
a fresh one-element vector, so after two executed instances with results 1
and 2 the buffer holds only `[2]`, not `[1, 2]`. -/
theorem c4_output_buffer_keeps_only_last :
    (executeQueue 5 id [constOutputAction 1, constOutputAction 2] ((), [])).2 = [(5, [2])]
    ∧ (executeQueue 5 id [constOutputAction 1, constOutputAction 2] ((), [])).2
        ≠ [(5, [1, 2])] := by
  refine ⟨rfl, ?_⟩
  decide

/-- C5 counterexample: the claim states that a second `register::<C>()` on the
same registry returns the id of the first registration and leaves the registry
unchanged.  On the embedded code the first call returns id 0 but the second
returns id 1, and the registry after the second call differs from the registry
after the first. -/
theorem c5_register_counterexample :
    (Components.new.register positionType).2 = 0
    ∧ ((Components.new.register positionType).1.register positionType).2 = 1
    ∧ ((Components.new.register positionType).1.register positionType).1
        ≠ (Components.new.register positionType).1 := by
  refine ⟨rfl, rfl, ?_⟩
  decide

/-- C5 (amended): a second registration of the same type is NOT idempotent: it
returns a fresh id one larger than the first, appends a second metadata entry
(the component list grows by two over both calls), and remaps the type id to
the new id. -/
theorem c5_register_reallocates (s : Components) (t : TypeDesc) :
    ((s.register t).1.register t).2 = (s.register t).2 + 1
    ∧ ((s.register t).1.register t).1.components.length = s.components.length + 2
    ∧ ((s.register t).1.register t).1.getId t
        = some ((s.register t).1.register t).2 := by
  refine ⟨?_, ?_, ?_⟩
  · simp [Components.register]
  · simp [Components.register]
  · simp only [Components.register, Components.getId]
    exact assocGet_assocInsert_self _ _ _

/-- C6 counterexample: the claim states that `archetypes(with, without)`
returns each qualifying archetype id exactly once.  On the embedded code the
scan pushes a qualifying archetype once per `with`-component whose inverted
index bucket holds it: in the concrete world the archetype `{C, D}` is listed
under both `C` and `D`, so `archetypes([C, D], [])` returns it twice. -/
theorem c6_duplicate_counterexample :
    Archetypes.archetypesQuery c1State [cComp, dComp] [] = [[0, 1], [0, 1]]
    ∧ ¬(Archetypes.archetypesQuery c1State [cComp, dComp] []).Nodup := by
  refine ⟨rfl, ?_⟩
  decide

/-- C6 (amended): provided the archetype map keys every archetype by its own
id and the inverted-index buckets are duplicate-free, `archetypes(with,
without)` contains an archetype id once per `with`-component whose bucket
holds it when the archetype's component set is a superset of `with` and
disjoint from `without`, and never otherwise; the order is the index traversal
order, and an empty `with` yields the empty result (the count is 0 for every
id).  Each qualifying id therefore appears a number of times equal to how many
`with`-buckets list it — not exactly once. -/
theorem c6_query_count (s : Archetypes) (ws wo : List ComponentId) (a : ArchetypeId)
    (hid : ∀ p ∈ s.archetypes.entries, p.2.id = p.1)
    (hnd : ∀ q ∈ s.components.entries, q.2.Nodup) :
    (s.archetypesQuery ws wo).count a =
      if qualifies s ws wo a then
        (ws.filter fun c => decide (a ∈ bucketD s c)).length
      else 0 :=
  count_flatMap_buckets hid hnd ws wo a ws

/-- C6 witness: the amended count law evaluated in the concrete world at the
archetype `{C, D}` for the scan `archetypes([C, D], [])`. -/
theorem c6_query_count_witness :
    (Archetypes.archetypesQuery c1State [cComp, dComp] []).count [0, 1] =
      if qualifies c1State [cComp, dComp] [] [0, 1] then
        (([cComp, dComp] : List ComponentId).filter fun c =>
          decide (([0, 1] : ArchetypeId) ∈ bucketD c1State c)).length
      else 0 :=
  c6_query_count c1State [cComp, dComp] [] [0, 1] (by decide) (by decide)

/-- C7: the claim states that after `remove(k)` on a sparse set, `contains(k)`
is false and the key moved from the dense tail still resolves to its value.
On the embedded code both parts fail at `insert(0, 10); insert(1, 20);
remove(0)`: `contains(0)` stays true because `SparseArray::contains` only
range-checks the backing vector, and `get(1)` — the moved tail key — panics,
because the repatch reinstalls the REMOVED key (`indices.swap_remove` returns
the removed element, not the moved tail), leaving key 1 mapped to the now
out-of-range dense slot 1; `get(0)` even returns key 1's value 20. -/
theorem c7_swap_remove_repatch_broken :
    SparseSet.new.insert 0 10 = Except.ok c7s1
    ∧ c7s1.insert 1 20 = Except.ok c7s2
    ∧ c7s2.remove 0 = Except.ok (some 10, c7s3)
    ∧ c7s3.contains 0 = true
    ∧ c7s3.get 0 = Except.ok (some 20)
    ∧ c7s3.get 1 = Except.error () :=
  ⟨rfl, rfl, rfl, rfl, rfl, rfl⟩

/-- C8: the claim states that a dependency cycle is rejected as a fatal error
at build time.  On the embedded code there is no cycle check: for three
systems whose access sets form the cycle `0 → 1 → 2 → 0`, every node remains
blocked, the peel loop's group is empty while nodes remain — the source's
`while` loop removes nothing and never terminates (`Option.none` in the
embedding), and no error is reported. -/
theorem c8_cycle_not_rejected :
    SystemGraph.build cycleNodes = Option.none
    ∧ buildDependencyGraph cycleNodes = [(0, [1]), (1, [2]), (2, [0])]
    ∧ unblockedGroup (buildDependencyGraph cycleNodes) = []
    ∧ buildDependencyGraph cycleNodes ≠ [] := by
  refine ⟨rfl, rfl, rfl, ?_⟩
  decide

/-- C9: a `RemoveComponent<C>(e)` instance whose entity does not have `C` is
skipped by the executor loop through the action's `skip(world)` predicate: the
world is untouched and no output is contributed. -/
theorem c9_remove_component_skip (w : Archetypes) (outs : ActionOutputs Entity)
    (tid : Nat) (c : ComponentId) (e : Entity) (h : w.has e c = false) :
    actionStep tid (w, outs) (removeComponentAction c e) = (w, outs) := by
  simp [actionStep, removeComponentAction, h]

/-- C9 witness: the skip law at the empty archetype index, entity `(0, 0)` and
component 0. -/
theorem c9_remove_component_skip_witness :
    Archetypes.has Archetypes.new ⟨0, 0⟩ 0 = false
    ∧ actionStep 3 (Archetypes.new, ([] : ActionOutputs Entity))
        (removeComponentAction 0 ⟨0, 0⟩) = (Archetypes.new, []) :=
  ⟨by decide, c9_remove_component_skip Archetypes.new [] 3 0 ⟨0, 0⟩ (by decide)⟩

/-- C10: `Blob::get` and `Blob::get_mut` return `some` exactly when the index
is below the length and `none` otherwise; the out-of-range branch never
reaches the raw memory read. -/
theorem c10_blob_get_bounds {T : Type} (b : Blob T) (i : Nat) :
    ((b.get i).isSome ↔ i < b.len) ∧ ((b.get_mut i).isSome ↔ i < b.len) := by
  by_cases h : i < b.len <;> simp [Blob.get, Blob.get_mut, h]
